import Mathlib

/-!
Shallow embedding of `src/main.py` (class `MCP`): the structural analyzer
(`analyze_python_file`), the pattern scanner (`find_bugs`), and the text
search (`search_code`).  The Python `ast` module is an external collaborator:
parsing is modelled by passing the parse result (`Except SynError ...`)
explicitly; the syntax-tree shape below mirrors the `ast` node classes the
code inspects (`Import`, `ImportFrom`, `ClassDef`, `FunctionDef`, `Assign`),
with every other statement kind collapsed into `Stmt.other` (it matches none
of the `isinstance` branches, so only its children matter to the traversal).

A central fact of the source: CPython `ast` nodes carry no `parent`
attribute, and `main.py` never assigns one, so the expressions
`node.parent` at lines 108 and 116 of `src/main.py` raise `AttributeError`
for every `FunctionDef` and every `Assign` node the walk reaches.  This is
modelled by `visitNode` returning `Except.error` at those two node kinds.
(Python renders the message with quotes around the class and attribute
names; the quotes are omitted here, no theorem inspects the exact text.)
-/

namespace MCP

/-- Assignment targets: the code only distinguishes `ast.Name` targets
(`isinstance(target, ast.Name)` at line 118) from everything else. -/
inductive Target where
  | name (id : String)
  | otherTarget

/-- Statement nodes of the parsed tree, as inspected by `analyze_python_file`.
`lineno` fields mirror `node.lineno`; `args` mirrors
`[arg.arg for arg in node.args.args]`.  `other` stands for any statement
class the code never tests for (`If`, `For`, `While`, `Try`, `Expr`,
`Pass`, ...), keeping only its nested statements, which `ast.walk` still
visits. -/
inductive Stmt where
  | importStmt (names : List String)
  | importFrom (module : Option String) (names : List String)
  | classDef (name : String) (lineno : Nat) (body : List Stmt)
  | functionDef (name : String) (lineno : Nat) (args : List String) (body : List Stmt)
  | assign (targets : List Target) (lineno : Nat)
  | other (body : List Stmt)

/-- Child statements of a node, for `ast.walk`.  Expression children
(import aliases, decorators, assignment values, ...) are omitted: the walk
visits them but they satisfy none of the `isinstance` tests in
`analyze_python_file`, so they are invisible to the analysis. -/
def childStmts : Stmt → List Stmt
  | .importStmt _ => []
  | .importFrom _ _ => []
  | .classDef _ _ body => body
  | .functionDef _ _ _ body => body
  | .assign _ _ => []
  | .other body => body

mutual

/-- Total size of a statement (node count), used to bound the depth of the
breadth-first walk. -/
def stmtSize : Stmt → Nat
  | .importStmt _ => 1
  | .importFrom _ _ => 1
  | .classDef _ _ body => 1 + levelSize body
  | .functionDef _ _ _ body => 1 + levelSize body
  | .assign _ _ => 1
  | .other body => 1 + levelSize body

/-- Size of a whole level of the walk. -/
def levelSize : List Stmt → Nat
  | [] => 0
  | s :: rest => stmtSize s + levelSize rest

end

/-- Breadth-first enumeration of nodes, level by level: this is the order
`ast.walk` yields nodes in (a FIFO queue seeded with the root).  `fuel`
bounds the number of levels; since every node has size at least 1, a
non-empty level's children have strictly smaller total size, so the number
of levels is at most `levelSize l`, and the fuel supplied by `walkStmts`
is never exhausted. -/
def walkAux : Nat → List Stmt → List Stmt
  | 0, _ => []
  | _ + 1, [] => []
  | fuel + 1, s :: rest => (s :: rest) ++ walkAux fuel ((s :: rest).flatMap childStmts)

/-- All nodes of a module body in `ast.walk` order.  The `Module` root node
itself, which `ast.walk` yields first, matches none of the `isinstance`
branches and is dropped. -/
def walkStmts (body : List Stmt) : List Stmt :=
  walkAux (levelSize body + 1) body

/-- A method entry, `{'name': ..., 'line': ..., 'args': [...]}`
(lines 99-103 of `src/main.py`). -/
structure MethodInfo where
  name : String
  line : Nat
  args : List String
deriving DecidableEq

/-- A class entry, `{'name': ..., 'methods': [...], 'line': ...}`
(lines 91-95 of `src/main.py`). -/
structure ClassInfo where
  name : String
  methods : List MethodInfo
  line : Nat
deriving DecidableEq

/-- A top-level function entry (lines 109-113 of `src/main.py`). -/
structure FunctionInfo where
  name : String
  line : Nat
  args : List String
deriving DecidableEq

/-- A module-level variable entry (lines 119-122 of `src/main.py`). -/
structure VariableInfo where
  name : String
  line : Nat
deriving DecidableEq

/-- The `analysis` dictionary of `analyze_python_file`.  The optional
`'error'` key is an `Option`: `none` means the key is absent. -/
structure Analysis where
  imports : List String
  classes : List ClassInfo
  functions : List FunctionInfo
  variables' : List VariableInfo
  error : Option String
deriving DecidableEq

/-- The dictionary initialized at lines 69-74 of `src/main.py`: all four
lists empty, no `'error'` key. -/
def emptyAnalysis : Analysis :=
  { imports := [], classes := [], functions := [], variables' := [], error := none }

/-- The `'methods'` list built for one `ClassDef`: the `FunctionDef`
entries of `node.body`, in order (lines 97-103 of `src/main.py`). -/
def methodsOf (body : List Stmt) : List MethodInfo :=
  body.filterMap fun s =>
    match s with
    | .functionDef n l args _ => some { name := n, line := l, args := args }
    | _ => none

/-- Processing of one walked node (the `isinstance` chain at lines 79-122
of `src/main.py`).  `FunctionDef` and `Assign` nodes evaluate
`node.parent`, which raises `AttributeError` because no node has that
attribute; the raised exception's `str(e)` is returned as `Except.error`. -/
def visitNode (a : Analysis) : Stmt → Except String Analysis
  | .importStmt names =>
      .ok { a with imports := a.imports ++ names }
  | .importFrom module names =>
      let m := match module with
        | some s => s
        | none => ""
      .ok { a with imports := a.imports ++ names.map fun n => m ++ "." ++ n }
  | .classDef name lineno body =>
      .ok { a with classes := a.classes ++ [{ name := name, methods := methodsOf body, line := lineno }] }
  | .functionDef _ _ _ _ =>
      .error "AttributeError: FunctionDef object has no attribute parent"
  | .assign _ _ =>
      .error "AttributeError: Assign object has no attribute parent"
  | .other _ => .ok a

/-- The exception a node raises when visited, if any: `FunctionDef` and
`Assign` are the two node kinds whose branches read `node.parent`. -/
def raiseMsg : Stmt → Option String
  | .functionDef _ _ _ _ => some "AttributeError: FunctionDef object has no attribute parent"
  | .assign _ _ => some "AttributeError: Assign object has no attribute parent"
  | _ => none

/-- The `for node in ast.walk(tree)` loop under `try`, with
`except Exception as e: analysis['error'] = str(e)` (lines 79-127 of
`src/main.py`): the first raising node stops the loop and records the
message under `'error'`, keeping everything accumulated so far. -/
def runWalk (a : Analysis) : List Stmt → Analysis
  | [] => a
  | n :: rest =>
      match visitNode a n with
      | .ok a' => runWalk a' rest
      | .error e => { a with error := some e }

/-- A `SyntaxError` raised by `ast.parse`: the fields `analyze_python_file`
and `find_bugs` read (`e.lineno`, `e.msg`). -/
structure SynError where
  lineno : Nat
  msg : String
deriving DecidableEq

/-- The body of `analyze_python_file` after reading non-empty content: parse
(result supplied by the external parser), then walk; a `SyntaxError` is
recorded as `'error'` with line and message (lines 76-129 of
`src/main.py`). -/
def analyzeParsed (parsed : Except SynError (List Stmt)) : Analysis :=
  match parsed with
  | .error e =>
      { emptyAnalysis with error := some ("Syntax error at line " ++ toString e.lineno ++ ": " ++ e.msg) }
  | .ok body => runWalk emptyAnalysis (walkStmts body)

/-- Result of `analyze_python_file`: the bare `{}` returned for falsy
content (line 67 of `src/main.py`, also the I/O-failure path, since
`_read_file` returns `""` on any exception), or a full analysis record. -/
inductive AnalyzeResult where
  | emptyDict
  | result (a : Analysis)
deriving DecidableEq

/-- `analyze_python_file` (lines 63-129 of `src/main.py`): `content` is what
`_read_file` returned (`""` on I/O failure), `parsed` the external parse of
that content. -/
def analyze_python_file (content : String) (parsed : Except SynError (List Stmt)) : AnalyzeResult :=
  if content = "" then .emptyDict
  else .result (analyzeParsed parsed)

/-!
Regular expressions.  Every pattern used by `find_bugs` (lines 186-194 of
`src/main.py`) is a plain concatenation of single-character classes, each
optionally under a greedy `*` or `+` — no groups, no alternation — so a
regex is embedded as a list of quantified character classes, matched with
Python `re`'s leftmost, greedy, backtracking semantics.
-/

/-- A single-character class: a literal character, `.` (anything but a
newline, no DOTALL flag is used), `\backslash s` (Python whitespace class),
or a negated set `[^...]` (which does match newlines). -/
inductive CC where
  | lit (c : Char)
  | dot
  | ws
  | neg (cs : List Char)
deriving DecidableEq

/-- Whether a character class matches one character.  `\backslash s` is
Python's whitespace class: space, tab, newline, carriage return, vertical
tab (U+000B) and form feed (U+000C). -/
def CC.mat : CC → Char → Bool
  | .lit c, d => c = d
  | .dot, d => d ≠ '\n'
  | .ws, d => d = ' ' || d = '\t' || d = '\n' || d = '\r' || d = '\x0b' || d = '\x0c'
  | .neg cs, d => ¬ cs.contains d

/-- One regex element: a character class appearing once, under greedy `*`,
or under greedy `+`. -/
inductive RItem where
  | one (c : CC)
  | star (c : CC)
  | plus (c : CC)
deriving DecidableEq

/-- A regex is a concatenation of elements. -/
abbrev Regex := List RItem

/-- Backtracking matcher: `matchFuel fuel rs s` returns the number of
characters a match of `rs` anchored at the start of `s` consumes, choosing
greedily (a starred class consumes as much as possible first and backs off
only on failure), exactly Python `re`'s strategy for these patterns; `none`
when there is no match.  `fuel` bounds the call depth.  Writing `R` for the
length of the regex list (which never grows along a call: `plus c :: rs`
steps to `star c :: rs` of the same length, every other step shortens it),
the quantity `s.length * (R + 1) + rs.length` strictly decreases at every
recursive call, so any fuel exceeding it is never exhausted. -/
def matchFuel : Nat → Regex → List Char → Option Nat
  | 0, _, _ => none
  | _ + 1, [], _ => some 0
  | fuel + 1, .one c :: rs, s =>
      match s with
      | [] => none
      | d :: s' => if c.mat d then (matchFuel fuel rs s').map (· + 1) else none
  | fuel + 1, .plus c :: rs, s =>
      match s with
      | [] => none
      | d :: s' => if c.mat d then (matchFuel fuel (.star c :: rs) s').map (· + 1) else none
  | fuel + 1, .star c :: rs, s =>
      match s with
      | [] => matchFuel fuel rs []
      | d :: s' =>
          if c.mat d then
            match matchFuel fuel (.star c :: rs) s' with
            | some n => some (n + 1)
            | none => matchFuel fuel rs (d :: s')
          else matchFuel fuel rs (d :: s')

/-- Anchored match of a regex at the start of `s`, with sufficient fuel
(see `matchFuel`): the consumed length of the leftmost-greedy match. -/
def matchHere (rs : Regex) (s : List Char) : Option Nat :=
  matchFuel (s.length * (rs.length + 1) + rs.length + 1) rs s

/-- `re.finditer` scan: try an anchored match at each position from left to
right; a successful match is reported as `(start, end)` (in code points,
like Python string indices) and scanning resumes at `end` (or one past an
empty match).  `fuel` bounds the steps; each step drops at least one
character, so `s.length + 1` suffices. -/
def findIterAux (re : Regex) : Nat → List Char → Nat → List (Nat × Nat)
  | 0, _, _ => []
  | fuel + 1, s, pos =>
      match matchHere re s with
      | none =>
          match s with
          | [] => []
          | _ :: s' => findIterAux re fuel s' (pos + 1)
      | some len =>
          match s with
          | [] => [(pos, pos + len)]
          | _ :: s' =>
              if len = 0 then (pos, pos) :: findIterAux re fuel s' (pos + 1)
              else (pos, pos + len) :: findIterAux re fuel (s'.drop (len - 1)) (pos + len)

/-- All non-overlapping matches of `re` in `content`, leftmost first, as
`(start, end)` pairs: the `(m.start(), m.end())` spans `re.finditer`
yields. -/
def finditer (re : Regex) (content : List Char) : List (Nat × Nat) :=
  findIterAux re (content.length + 1) content 0

/-- Literal regex fragment: one `RItem.one (CC.lit c)` per character. -/
def lits (s : String) : Regex := s.data.map fun c => .one (.lit c)

/-- A finding appended to `bugs` (lines 177-182 and 199-204 of
`src/main.py`): the keys `'file'`, `'line'`, `'type'`, `'message'`. -/
structure Finding where
  file : String
  line : Nat
  type : String
  message : String
deriving DecidableEq

/-- The fixed, ordered heuristic rule table of `find_bugs` (lines 186-194
of `src/main.py`), each entry `(compiled regex, bug type, suggestion)`:

1. `except:`
2. `except Exception:`
3. `\backslash .get\backslash ([^,]+\backslash )`
4. `print\backslash (.*\backslash )`
5. `.*=\backslash s*\backslash [\backslash ]\backslash s*\backslash nfor.*:.*\backslash .append`
6. `if\backslash s+[^=!<>]+\backslash s+==\backslash s+True`
7. `if\backslash s+[^=!<>]+\backslash s+==\backslash s+False` -/
def patterns : List (Regex × String × String) :=
  [ (lits "except:", "Bare except clause", "Use specific exceptions"),
    (lits "except Exception:", "Too broad exception handling", "Use more specific exceptions"),
    (lits ".get(" ++ [.plus (.neg [','])] ++ lits ")",
      "dict.get() without default", "Provide default value to avoid potential None"),
    (lits "print(" ++ [.star .dot] ++ lits ")",
      "Debug print statement", "Remove debug prints"),
    ([.star .dot] ++ lits "=" ++ [.star .ws] ++ lits "[]" ++ [.star .ws] ++ lits "\nfor"
        ++ [.star .dot] ++ lits ":" ++ [.star .dot] ++ lits ".append",
      "Inefficient list building", "Use list comprehension"),
    (lits "if" ++ [.plus .ws] ++ [.plus (.neg ['=', '!', '<', '>'])] ++ [.plus .ws]
        ++ lits "==" ++ [.plus .ws] ++ lits "True",
      "Unnecessary comparison to True", "Use \"if condition:\" instead"),
    (lits "if" ++ [.plus .ws] ++ [.plus (.neg ['=', '!', '<', '>'])] ++ [.plus .ws]
        ++ lits "==" ++ [.plus .ws] ++ lits "False",
      "Unnecessary comparison to False", "Use \"if not condition:\" instead") ]

/-- The finding built for one match `m = (start, end)` of one rule:
`line_number = content[:match.start()].count(chr(10)) + 1` (line 198 of
`src/main.py`). -/
def findingOf (relPath content : String) (rule : Regex × String × String) (m : Nat × Nat) : Finding :=
  { file := relPath,
    line := (content.data.take m.1).count '\n' + 1,
    type := rule.2.1,
    message := rule.2.2 }

/-- The findings one rule contributes, in match order. -/
def ruleFindings (relPath content : String) (rule : Regex × String × String) : List Finding :=
  (finditer rule.1 content.data).map (findingOf relPath content rule)

/-- The heuristic phase of `find_bugs` for one file (lines 196-204 of
`src/main.py`): rules in table order, matches in occurrence order. -/
def scanPatterns (relPath content : String) : List Finding :=
  patterns.flatMap (ruleFindings relPath content)

/-- The per-file body of the `find_bugs` loop (lines 168-204 of
`src/main.py`): empty content (including the I/O-failure read) is skipped;
a parse failure emits the single `'Syntax Error'` finding and `continue`s;
otherwise the heuristic rules run. -/
def find_bugs_file (relPath content : String) (parsed : Except SynError Unit) : List Finding :=
  if content = "" then []
  else
    match parsed with
    | .error e => [{ file := relPath, line := e.lineno, type := "Syntax Error", message := e.msg }]
    | .ok _ => scanPatterns relPath content

/-- Decidable equality for external parse results. -/
instance exceptDecEq {α β : Type} [DecidableEq α] [DecidableEq β] :
    DecidableEq (Except α β) := fun
  | .ok a, .ok b =>
      if h : a = b then .isTrue (by rw [h]) else .isFalse (by intro hc; cases hc; exact h rfl)
  | .error a, .error b =>
      if h : a = b then .isTrue (by rw [h]) else .isFalse (by intro hc; cases hc; exact h rfl)
  | .ok _, .error _ => .isFalse (by intro hc; cases hc)
  | .error _, .ok _ => .isFalse (by intro hc; cases hc)

/-- One entry of `self.files`: the fields `find_bugs` uses (`rel_path`),
together with the externally supplied file content (what `_read_file`
returns, `""` on I/O failure) and the external parse of that content. -/
structure IndexedFile where
  rel_path : String
  content : String
  parsed : Except SynError Unit
deriving DecidableEq

/-- Python `s.endswith(suf)`: code-point suffix test (spelled out on
`List Char` so that concrete instances evaluate by kernel reduction). -/
def strEndsWith (s suf : String) : Bool := List.isSuffixOf suf.data s.data

/-- The `files_to_check` selection of `find_bugs` (lines 163-166 of
`src/main.py`).  The guard is `if file_path:`, Python truthiness: both
`None` and the empty string are falsy, so an explicit `""` argument takes
the no-argument branch and all indexed keys ending in `.py` are scanned;
a truthy explicit path is kept only if it is a key of `self.files`.
`self.files` is a `dict` in insertion order, embedded as an association
list with distinct keys. -/
def files_to_check (files : List (String × IndexedFile)) : Option String → List String
  | some fp =>
      if fp = "" then (files.map Prod.fst).filter fun f => strEndsWith f ".py"
      else if (files.map Prod.fst).contains fp then [fp] else []
  | none => (files.map Prod.fst).filter fun f => strEndsWith f ".py"

/-- `find_bugs` (lines 159-206 of `src/main.py`). -/
def find_bugs (files : List (String × IndexedFile)) (filePath : Option String) : List Finding :=
  (files_to_check files filePath).flatMap fun f =>
    match List.lookup f files with
    | some r => find_bugs_file r.rel_path r.content r.parsed
    | none => []

/-- One entry of the `file_matches` list of `search_code` (lines 145-149 of
`src/main.py`): `match.group(0)`, the 1-based line, and the context window
`content[max(0, start - 50) : min(len(content), end + 50)]`. -/
structure SearchMatch where
  matched : String
  line : Nat
  context : String
deriving DecidableEq

/-- The matches `search_code` collects for one file's content (lines
136-149 of `src/main.py`). -/
def searchFileMatches (re : Regex) (content : String) : List SearchMatch :=
  (finditer re content.data).map fun m =>
    let cs := content.data
    let ctxStart := max 0 (m.1 - 50)
    let ctxEnd := min cs.length (m.2 + 50)
    { matched := String.mk ((cs.drop m.1).take (m.2 - m.1)),
      line := (cs.take m.1).count '\n' + 1,
      context := String.mk ((cs.drop ctxStart).take (ctxEnd - ctxStart)) }

/-- `search_code` (lines 131-157 of `src/main.py`): per file, the matches;
files with none are omitted. -/
def search_code (files : List (String × IndexedFile)) (re : Regex) :
    List (String × List SearchMatch) :=
  files.filterMap fun kv =>
    let ms := searchFileMatches re kv.2.content
    if ms = [] then none else some (kv.2.rel_path, ms)

/-- Whether a node is a `FunctionDef`. -/
def isFunctionDefNode : Stmt → Bool
  | .functionDef _ _ _ _ => true
  | _ => false

/-- Whether a node is an `Assign`. -/
def isAssignNode : Stmt → Bool
  | .assign _ _ => true
  | _ => false

/-- A sample file inventory (two indexed files, one of them a `.py` file)
used to instantiate the `find_bugs` selection theorem. -/
def sampleFiles : List (String × IndexedFile) :=
  [("/proj/a.py", { rel_path := "a.py", content := "pass", parsed := .ok () }),
   ("/proj/notes.txt", { rel_path := "notes.txt", content := "todo", parsed := .ok () })]

/-- A one-file inventory whose `.py` file triggers a heuristic finding,
used to exhibit `find_bugs`'s behavior on the falsy explicit argument
`""`. -/
def cexFiles : List (String × IndexedFile) :=
  [("/proj/dbg.py", { rel_path := "dbg.py", content := "print(1)", parsed := .ok () })]

/-- The result of a successful `visitNode`, as a total function (at raising
nodes it returns the input unchanged; it is only consulted where
`visitNode` succeeds). -/
def visitOk (a : Analysis) (n : Stmt) : Analysis :=
  match visitNode a n with
  | .ok a' => a'
  | .error _ => a

end MCP

open MCP

theorem visitNode_ok_eq (a : Analysis) (n : Stmt) (h : raiseMsg n = none) :
    visitNode a n = .ok (visitOk a n) := by
  cases n <;> simp_all [raiseMsg, visitNode, visitOk]

theorem visitNode_error_eq (a : Analysis) (n : Stmt) (msg : String)
    (h : raiseMsg n = some msg) : visitNode a n = .error msg := by
  cases n <;> simp_all [raiseMsg, visitNode]

theorem visitNode_fields {a a' : Analysis} {n : Stmt} (h : visitNode a n = .ok a') :
    a'.functions = a.functions ∧ a'.variables' = a.variables' := by
  cases n <;> simp [visitNode] at h <;> simp [← h]

theorem runWalk_functions : ∀ (ns : List Stmt) (a : Analysis),
    (runWalk a ns).functions = a.functions
  | [], _ => rfl
  | n :: rest, a => by
      cases hv : visitNode a n with
      | ok a' =>
          rw [runWalk, hv]
          rw [runWalk_functions rest a', (visitNode_fields hv).1]
      | error e => simp [runWalk, hv]

theorem runWalk_variables : ∀ (ns : List Stmt) (a : Analysis),
    (runWalk a ns).variables' = a.variables'
  | [], _ => rfl
  | n :: rest, a => by
      cases hv : visitNode a n with
      | ok a' =>
          rw [runWalk, hv]
          rw [runWalk_variables rest a', (visitNode_fields hv).2]
      | error e => simp [runWalk, hv]

theorem runWalk_error_isSome : ∀ (ns : List Stmt) (a : Analysis),
    (∃ n ∈ ns, (raiseMsg n).isSome) → ((runWalk a ns).error).isSome
  | [], _, h => by simp at h
  | n :: rest, a, h => by
      cases hr : raiseMsg n with
      | some msg => simp [runWalk, visitNode_error_eq a n msg hr]
      | none =>
          rw [runWalk, visitNode_ok_eq a n hr]
          obtain ⟨x, hx, hxs⟩ := h
          rcases List.mem_cons.mp hx with rfl | hx'
          · rw [hr] at hxs; simp at hxs
          · exact runWalk_error_isSome rest (visitOk a n) ⟨x, hx', hxs⟩

theorem runWalk_raise_split (post : List Stmt) (n : Stmt) (msg : String)
    (hn : raiseMsg n = some msg) :
    ∀ (pre : List Stmt) (a : Analysis), (∀ m ∈ pre, raiseMsg m = none) →
      runWalk a (pre ++ n :: post) = { runWalk a pre with error := some msg }
  | [], a, _ => by simp [runWalk, visitNode_error_eq a n msg hn]
  | m :: pre', a, hpre => by
      have hm : raiseMsg m = none := hpre m (List.mem_cons_self ..)
      rw [List.cons_append, runWalk, visitNode_ok_eq a m hm,
        runWalk, visitNode_ok_eq a m hm]
      exact runWalk_raise_split post n msg hn pre' (visitOk a m)
        fun x hx => hpre x (List.mem_cons_of_mem _ hx)

theorem mem_walkStmts_of_mem {n : Stmt} {body : List Stmt} (h : n ∈ body) :
    n ∈ walkStmts body := by
  unfold walkStmts
  cases body with
  | nil => simp at h
  | cons s rest =>
      rw [walkAux]
      exact List.mem_append_left _ h

theorem findIterAux_succ (re : Regex) (fuel : Nat) (s : List Char) (pos : Nat) :
    findIterAux re (fuel + 1) s pos =
      match matchHere re s with
      | none =>
          match s with
          | [] => []
          | _ :: s' => findIterAux re fuel s' (pos + 1)
      | some len =>
          match s with
          | [] => [(pos, pos + len)]
          | _ :: s' =>
              if len = 0 then (pos, pos) :: findIterAux re fuel s' (pos + 1)
              else (pos, pos + len) :: findIterAux re fuel (s'.drop (len - 1)) (pos + len) :=
  rfl

theorem findIterAux_nil_none {re : Regex} {fuel pos : Nat}
    (hm : matchHere re [] = none) : findIterAux re (fuel + 1) [] pos = [] := by
  rw [findIterAux_succ, hm]

theorem findIterAux_nil_some {re : Regex} {fuel pos len : Nat}
    (hm : matchHere re [] = some len) :
    findIterAux re (fuel + 1) [] pos = [(pos, pos + len)] := by
  rw [findIterAux_succ, hm]

theorem findIterAux_cons_none {re : Regex} {fuel pos : Nat} {d : Char} {s' : List Char}
    (hm : matchHere re (d :: s') = none) :
    findIterAux re (fuel + 1) (d :: s') pos = findIterAux re fuel s' (pos + 1) := by
  rw [findIterAux_succ, hm]

theorem findIterAux_cons_zero {re : Regex} {fuel pos : Nat} {d : Char} {s' : List Char}
    (hm : matchHere re (d :: s') = some 0) :
    findIterAux re (fuel + 1) (d :: s') pos =
      (pos, pos) :: findIterAux re fuel s' (pos + 1) := by
  rw [findIterAux_succ, hm]
  show (if (0 : Nat) = 0 then (pos, pos) :: findIterAux re fuel s' (pos + 1)
      else (pos, pos + 0) :: findIterAux re fuel (s'.drop (0 - 1)) (pos + 0)) = _
  rw [if_pos rfl]

theorem findIterAux_cons_pos {re : Regex} {fuel pos len : Nat} {d : Char} {s' : List Char}
    (hm : matchHere re (d :: s') = some len) (hl : len ≠ 0) :
    findIterAux re (fuel + 1) (d :: s') pos =
      (pos, pos + len) :: findIterAux re fuel (s'.drop (len - 1)) (pos + len) := by
  rw [findIterAux_succ, hm]
  show (if len = 0 then (pos, pos) :: findIterAux re fuel s' (pos + 1)
      else (pos, pos + len) :: findIterAux re fuel (s'.drop (len - 1)) (pos + len)) = _
  rw [if_neg hl]

theorem findIterAux_pos_le (re : Regex) : ∀ (fuel : Nat) (s : List Char) (pos : Nat)
    (m : Nat × Nat), m ∈ findIterAux re fuel s pos → pos ≤ m.1
  | 0, s, pos, m => by simp [findIterAux]
  | fuel + 1, s, pos, m => by
      intro h
      cases s with
      | nil =>
          cases hm : matchHere re ([] : List Char) with
          | none => rw [findIterAux_nil_none hm] at h; simp at h
          | some len => rw [findIterAux_nil_some hm] at h; simp at h; simp [h]
      | cons d s' =>
          cases hm : matchHere re (d :: s') with
          | none =>
              rw [findIterAux_cons_none hm] at h
              exact le_trans (Nat.le_succ pos) (findIterAux_pos_le re fuel s' (pos + 1) m h)
          | some len =>
              by_cases hl : len = 0
              · subst hl
                rw [findIterAux_cons_zero hm] at h
                rcases List.mem_cons.mp h with rfl | h'
                · exact le_refl pos
                · exact le_trans (Nat.le_succ pos)
                    (findIterAux_pos_le re fuel s' (pos + 1) m h')
              · rw [findIterAux_cons_pos hm hl] at h
                rcases List.mem_cons.mp h with rfl | h'
                · exact le_refl pos
                · exact le_trans (Nat.le_add_right pos len)
                    (findIterAux_pos_le re fuel (s'.drop (len - 1)) (pos + len) m h')

theorem findIterAux_pairwise (re : Regex) : ∀ (fuel : Nat) (s : List Char) (pos : Nat),
    List.Pairwise (fun a b : Nat × Nat => a.1 < b.1) (findIterAux re fuel s pos)
  | 0, s, pos => by simp [findIterAux]
  | fuel + 1, s, pos => by
      cases s with
      | nil =>
          cases hm : matchHere re ([] : List Char) with
          | none => rw [findIterAux_nil_none hm]; simp
          | some len => rw [findIterAux_nil_some hm]; simp
      | cons d s' =>
          cases hm : matchHere re (d :: s') with
          | none =>
              rw [findIterAux_cons_none hm]
              exact findIterAux_pairwise re fuel s' (pos + 1)
          | some len =>
              by_cases hl : len = 0
              · subst hl
                rw [findIterAux_cons_zero hm]
                refine List.Pairwise.cons ?_ (findIterAux_pairwise re fuel s' (pos + 1))
                intro y hy
                exact lt_of_lt_of_le (Nat.lt_succ_self pos)
                  (findIterAux_pos_le re fuel s' (pos + 1) y hy)
              · rw [findIterAux_cons_pos hm hl]
                refine List.Pairwise.cons ?_
                  (findIterAux_pairwise re fuel (s'.drop (len - 1)) (pos + len))
                intro y hy
                have h1 : pos < pos + len := Nat.lt_add_of_pos_right (Nat.pos_of_ne_zero hl)
                exact lt_of_lt_of_le h1
                  (findIterAux_pos_le re fuel (s'.drop (len - 1)) (pos + len) y hy)

theorem empty_append_str (s : String) : "" ++ s = s := by
  cases s
  rfl

theorem flatMap_congr_mem {α β : Type} {l : List α} {f g : α → List β}
    (h : ∀ x ∈ l, f x = g x) : l.flatMap f = l.flatMap g := by
  induction l with
  | nil => rfl
  | cons x xs ih =>
      rw [List.flatMap_cons, List.flatMap_cons, h x (List.mem_cons_self ..),
        ih fun y hy => h y (List.mem_cons_of_mem _ hy)]

theorem lookup_eq_of_nodup : ∀ (files : List (String × IndexedFile)),
    (files.map Prod.fst).Nodup → ∀ {k : String} {v : IndexedFile},
    (k, v) ∈ files → List.lookup k files = some v
  | [], _, _, _, hm => by simp at hm
  | (k1, v1) :: rest, hnd, k, v, hm => by
      rcases List.mem_cons.mp hm with heq | hm'
      · cases heq
        simp [List.lookup]
      · have hnd' : (k1 ∉ rest.map Prod.fst) ∧ (rest.map Prod.fst).Nodup := by
          rw [List.map_cons, List.nodup_cons] at hnd
          exact hnd
        have hk : (k == k1) = false := by
          rw [beq_eq_false_iff_ne]
          intro he
          exact hnd'.1 (he ▸ List.mem_map_of_mem Prod.fst hm')
        simp only [List.lookup, hk]
        exact lookup_eq_of_nodup rest hnd'.2 hm'

/-- Claim C1 (refuting evaluation): for the cleanly-parsing file
`def f():\n    pass\n` the spec expects `f` in the top-level `functions`
list; instead the traversal's `node.parent` access raises, `functions`
stays empty and `error` is set, so the claimed partition of function-like
declarations never places top-level functions anywhere. -/
theorem claim_C1_toplevel_function_never_recorded :
    (analyzeParsed (Except.ok [Stmt.functionDef "f" 1 [] [Stmt.other []]])).functions = [] ∧
    (analyzeParsed (Except.ok [Stmt.functionDef "f" 1 [] [Stmt.other []]])).error =
      some "AttributeError: FunctionDef object has no attribute parent" :=
  ⟨rfl, rfl⟩

/-- Claim C2 (refuting evaluation): the file `x = 1` parses cleanly, yet
the analysis sets `error` (the `node.parent` access on the `Assign` node
raises), contradicting "`error` is set iff parsing failed"; the I/O-failure
half (empty read yields the bare empty dict with no error) does hold. -/
theorem claim_C2_error_set_despite_clean_parse :
    analyze_python_file "x = 1" (Except.ok [Stmt.assign [Target.name "x"] 1]) =
      AnalyzeResult.result { emptyAnalysis with
        error := some "AttributeError: Assign object has no attribute parent" } ∧
    analyze_python_file "" (Except.ok []) = AnalyzeResult.emptyDict :=
  ⟨rfl, rfl⟩

/-- Claim C3: when extraction raises at some node of the walk after a clean
parse, the analysis is not aborted: the offending construct's exception is
recorded under `error`, and every declaration collected from the nodes
visited before the failure is preserved in the returned result. -/
theorem claim_C3_extraction_failure_preserves_collected
    (body pre post : List Stmt) (n : Stmt) (msg : String)
    (hw : walkStmts body = pre ++ n :: post)
    (hpre : ∀ m ∈ pre, raiseMsg m = none)
    (hn : raiseMsg n = some msg) :
    analyzeParsed (Except.ok body) = { runWalk emptyAnalysis pre with error := some msg } := by
  show runWalk emptyAnalysis (walkStmts body) = _
  rw [hw]
  exact runWalk_raise_split post n msg hn pre emptyAnalysis hpre

/-- Witness for C3: `import os` followed by a function definition keeps the
already-collected import and records the function node's exception. -/
theorem claim_C3_witness :
    analyzeParsed (Except.ok
        [Stmt.importStmt ["os"], Stmt.functionDef "f" 2 [] [Stmt.other []]]) =
      { emptyAnalysis with
        imports := ["os"],
        error := some "AttributeError: FunctionDef object has no attribute parent" } :=
  claim_C3_extraction_failure_preserves_collected
    [Stmt.importStmt ["os"], Stmt.functionDef "f" 2 [] [Stmt.other []]]
    [Stmt.importStmt ["os"]] [Stmt.other []] (Stmt.functionDef "f" 2 [] [Stmt.other []])
    "AttributeError: FunctionDef object has no attribute parent"
    rfl
    (by intro m hm; simp at hm; subst hm; rfl)
    rfl

/-- Claim C4: a file whose (non-empty) text fails to parse yields exactly
one finding, of kind `Syntax Error`, at the reported failing line, and no
heuristic pattern rule is evaluated for it. -/
theorem claim_C4_syntax_error_short_circuits
    (relPath content : String) (e : SynError) (h : content ≠ "") :
    find_bugs_file relPath content (Except.error e) =
      [{ file := relPath, line := e.lineno, type := "Syntax Error", message := e.msg }] := by
  unfold find_bugs_file
  rw [if_neg h]

/-- Witness for C4 at a concrete broken file. -/
theorem claim_C4_witness :
    find_bugs_file "bad.py" "def f(:" (Except.error { lineno := 1, msg := "invalid syntax" }) =
      [{ file := "bad.py", line := 1, type := "Syntax Error", message := "invalid syntax" }] :=
  claim_C4_syntax_error_short_circuits "bad.py" "def f(:"
    { lineno := 1, msg := "invalid syntax" } (by decide)

/-- Claim C5: every heuristic-rule match produces a finding whose line is
the newline count of the text before the match start, plus one; concretely,
the parseable file `try:\n    pass\nexcept:\n    pass\n` (with `except:` on
line 3) yields a `Bare except clause` finding at line 3. -/
theorem claim_C5_line_is_newline_count_plus_one :
    (∀ (relPath content : String) (rule : Regex × String × String) (m : Nat × Nat),
        rule ∈ patterns → m ∈ finditer rule.1 content.data →
        findingOf relPath content rule m ∈ scanPatterns relPath content ∧
        (findingOf relPath content rule m).line = (content.data.take m.1).count '\n' + 1) ∧
    ({ file := "a.py", line := 3, type := "Bare except clause",
        message := "Use specific exceptions" } : Finding) ∈
      find_bugs_file "a.py" "try:\n    pass\nexcept:\n    pass\n" (Except.ok ()) := by
  constructor
  · intro relPath content rule m hr hm
    exact ⟨List.mem_flatMap.mpr ⟨rule, hr, List.mem_map_of_mem _ hm⟩, rfl⟩
  · decide

/-- Witness for C5's quantified part at a concrete rule and match. -/
theorem claim_C5_witness :
    findingOf "w.py" "except:"
        (lits "except:", "Bare except clause", "Use specific exceptions") (0, 7) ∈
      scanPatterns "w.py" "except:" ∧
    (findingOf "w.py" "except:"
        (lits "except:", "Bare except clause", "Use specific exceptions") (0, 7)).line =
      ("except:".data.take 0).count '\n' + 1 :=
  claim_C5_line_is_newline_count_plus_one.1 "w.py" "except:"
    (lits "except:", "Bare except clause", "Use specific exceptions") (0, 7)
    (by decide) (by decide)

/-- Claim C6: findings are emitted grouped by rule in the fixed table
order, matches of one rule in strictly increasing start position (textual
occurrence order); they are not globally sorted by line, as the concrete
file with `print(...)` on line 2 and `except:` on line 3 shows (its
emitted line sequence is `[3, 2]`). -/
theorem claim_C6_finding_order :
    (∀ (relPath content : String),
        scanPatterns relPath content =
          (patterns.map (ruleFindings relPath content)).flatten) ∧
    (∀ (re : Regex) (content : List Char),
        List.Pairwise (fun a b : Nat × Nat => a.1 < b.1) (finditer re content)) ∧
    ((scanPatterns "t.py" "try:\n    print(1)\nexcept:\n    pass\n").map Finding.line
      = [3, 2]) ∧
    ¬ List.Pairwise (fun a b : Nat => a ≤ b)
        ((scanPatterns "t.py" "try:\n    print(1)\nexcept:\n    pass\n").map Finding.line) := by
  refine ⟨?_, ?_, ?_, ?_⟩
  · intro relPath content
    exact List.flatMap_def _ _
  · intro re content
    exact findIterAux_pairwise re (content.length + 1) content 0
  · decide
  · decide

/-- Claim C7: searching `abc\(newline)def\(newline)abc` for `abc` returns
exactly the two matches, at lines 1 and 3, each with a non-empty context
clipped to the file bounds (here the whole 11-character text). -/
theorem claim_C7_search_abc :
    searchFileMatches (lits "abc") "abc\ndef\nabc" =
      [{ matched := "abc", line := 1, context := "abc\ndef\nabc" },
       { matched := "abc", line := 3, context := "abc\ndef\nabc" }] := by
  decide

/-- Claim C8: a from-import of symbol `y` from module `x` is recorded as
`x.y`; with no named module the recorded string is `.y` (empty prefix,
then the dot, then the symbol); end to end,
`from os import path` plus a module-less `from . import mod` yield
`["os.path", ".mod"]`. -/
theorem claim_C8_import_qualification :
    (∀ (a : Analysis) (x : String) (ys : List String),
        visitNode a (Stmt.importFrom (some x) ys) =
          Except.ok { a with imports := a.imports ++ ys.map fun y => x ++ "." ++ y }) ∧
    (∀ (a : Analysis) (ys : List String),
        visitNode a (Stmt.importFrom none ys) =
          Except.ok { a with imports := a.imports ++ ys.map fun y => "." ++ y }) ∧
    (analyzeParsed (Except.ok
        [Stmt.importFrom (some "os") ["path"], Stmt.importFrom none ["mod"]])).imports =
      ["os.path", ".mod"] := by
  refine ⟨fun a x ys => rfl, fun a ys => ?_, rfl⟩
  calc visitNode a (Stmt.importFrom none ys)
      = Except.ok { a with imports := a.imports ++ ys.map fun y => "" ++ "." ++ y } := rfl
    _ = Except.ok { a with imports := a.imports ++ ys.map fun y => "." ++ y } := by
        rw [show (fun y => ("" : String) ++ "." ++ y) = fun y => "." ++ y from
          funext fun y => by rw [empty_append_str]]

/-- Claim C9: any cleanly-parsing module containing a function definition
(anywhere in the walk) or a top-level assignment makes the analysis record
an error (the `node.parent` attribute access fails), and its `functions`
and `variables` lists are empty. -/
theorem claim_C9_parent_attribute_failure (body : List Stmt)
    (h : (∃ n ∈ walkStmts body, isFunctionDefNode n = true) ∨
         (∃ n ∈ body, isAssignNode n = true)) :
    ((analyzeParsed (Except.ok body)).error).isSome = true ∧
    (analyzeParsed (Except.ok body)).functions = [] ∧
    (analyzeParsed (Except.ok body)).variables' = [] := by
  have herr : ∃ n ∈ walkStmts body, (raiseMsg n).isSome := by
    rcases h with ⟨n, hn, hf⟩ | ⟨n, hn, ha⟩
    · refine ⟨n, hn, ?_⟩
      cases n <;> simp_all [isFunctionDefNode, raiseMsg]
    · refine ⟨n, mem_walkStmts_of_mem hn, ?_⟩
      cases n <;> simp_all [isAssignNode, raiseMsg]
  refine ⟨?_, ?_, ?_⟩
  · show ((runWalk emptyAnalysis (walkStmts body)).error).isSome = true
    simpa using runWalk_error_isSome (walkStmts body) emptyAnalysis herr
  · show (runWalk emptyAnalysis (walkStmts body)).functions = []
    rw [runWalk_functions]
    rfl
  · show (runWalk emptyAnalysis (walkStmts body)).variables' = []
    rw [runWalk_variables]
    rfl

/-- Witness for C9 at the one-line module `x = 1`. -/
theorem claim_C9_witness :
    ((analyzeParsed (Except.ok [Stmt.assign [Target.name "x"] 1])).error).isSome = true ∧
    (analyzeParsed (Except.ok [Stmt.assign [Target.name "x"] 1])).functions = [] ∧
    (analyzeParsed (Except.ok [Stmt.assign [Target.name "x"] 1])).variables' = [] :=
  claim_C9_parent_attribute_failure [Stmt.assign [Target.name "x"] 1]
    (Or.inr ⟨Stmt.assign [Target.name "x"] 1, List.mem_cons_self _ _, rfl⟩)

/-- Claim C10 (counterexample): the explicit argument `""` is not a key of
the index, yet `find_bugs` does not return the empty list: the guard
`if file_path:` treats `""` as falsy, so every indexed `.py` file is
scanned and here yields a `Debug print statement` finding. -/
theorem claim_C10_counterexample :
    (cexFiles.map Prod.fst).contains "" = false ∧
    find_bugs cexFiles (some "") =
      [{ file := "dbg.py", line := 1, type := "Debug print statement",
         message := "Remove debug prints" }] := by
  decide

/-- Claim C10 (amended): a non-empty explicit path that is not a key of
the file index makes `find_bugs` return no findings at all; the explicit
argument `""` is falsy and behaves exactly like giving no argument; with
no path argument, exactly the indexed keys ending in `.py` are scanned,
each through the per-file scan. -/
theorem claim_C10_file_selection (files : List (String × IndexedFile))
    (hnd : (files.map Prod.fst).Nodup) :
    (∀ fp : String, fp ≠ "" → (files.map Prod.fst).contains fp = false →
        find_bugs files (some fp) = []) ∧
    (find_bugs files (some "") = find_bugs files none) ∧
    (find_bugs files none =
      (files.filter fun kv => strEndsWith kv.1 ".py").flatMap fun kv =>
        find_bugs_file kv.2.rel_path kv.2.content kv.2.parsed) := by
  refine ⟨?_, ?_, ?_⟩
  · intro fp hne hfp
    have h0 : files_to_check files (some fp) = [] := by
      simp only [files_to_check, if_neg hne, hfp]
      rfl
    unfold find_bugs
    rw [h0]
    rfl
  · have h0 : files_to_check files (some "") = files_to_check files none := by
      simp [files_to_check]
    unfold find_bugs
    rw [h0]
  · unfold find_bugs files_to_check
    rw [List.filter_map, List.flatMap_map]
    refine flatMap_congr_mem ?_
    intro kv hkv
    have hmem : (kv.1, kv.2) ∈ files := by
      simpa using List.mem_of_mem_filter hkv
    rw [lookup_eq_of_nodup files hnd hmem]

/-- Witness for C10 on the two-file sample inventory. -/
theorem claim_C10_witness :
    find_bugs sampleFiles (some "/proj/zzz.py") = [] ∧
    find_bugs sampleFiles (some "") = find_bugs sampleFiles none ∧
    find_bugs sampleFiles none = find_bugs_file "a.py" "pass" (Except.ok ()) := by
  have h := claim_C10_file_selection sampleFiles (by decide)
  refine ⟨h.1 "/proj/zzz.py" (by decide) (by decide), h.2.1, ?_⟩
  rw [h.2.2]
  decide
